import Mathlib

/-!
Verification of the Health-Monitor pipeline (`src/app.py`).

The pipeline is embedded shallowly:

* Python string builtins (`strip`, `split`, `float`, `%d/%m/%Y` strptime) are
  modelled as executable Lean functions on `String` / `List Char`;
* table records (the dicts with keys `Name`, `Date`, `Test Name`, `Value`,
  `Unit`, `Reference Range`) become the structure `Entry`;
* code that can raise (`float`, indexing `''[0]`, `strptime`) returns
  `Option` / `Except Unit`, and a raised exception inside a Dash callback
  aborts the whole callback, which is modelled by `Except Unit` at the
  callback level;
* the regular-expression extraction of `extract_all_data_from_pdf` is run
  through a small backtracking regex engine with Python `re` semantics
  (leftmost match, greedy quantifiers, ordered alternation, capture groups).

Numeric values are modelled as rationals: every numeric literal handled by
the program is a decimal string, and the comparisons performed (`<`, `>`)
agree with the rational order on such values.
-/

namespace HealthMonitor

/-! ## Python string primitives -/

/-- Python's notion of (ASCII) whitespace, as used by `str.strip`, `\s` and
`str.split`.  The inputs handled by the program are ASCII. -/
def pySpaceChar (c : Char) : Bool :=
  c = ' ' || c = '\t' || c = '\n' || c = '\r' || c = '\x0b' || c = '\x0c'

/-- Characters matched by the regex class `\w` (ASCII range). -/
def isWordChar (c : Char) : Bool := c.isAlpha || c.isDigit || c = '_'

/-- Model of Python `str.strip()` on a character list. -/
def pyStripChars (s : List Char) : List Char :=
  ((s.dropWhile pySpaceChar).reverse.dropWhile pySpaceChar).reverse

/-- Model of Python `str.strip()`. -/
def pyStrip (s : String) : String := String.mk (pyStripChars s.data)

/-- Helper for `pySplitChars`: scans the string, cutting at every occurrence
of the (non-empty) separator, like Python `str.split(sep)`.  The fuel
argument (initially the string length, an upper bound on the number of
steps since every step consumes at least one character) keeps the
recursion structural, so that the function reduces definitionally. -/
def pySplitGo (sep : List Char) : Nat → List Char → List Char → List (List Char)
  | _, [], acc => [acc.reverse]
  | 0, _ :: _, acc => [acc.reverse]
  | fuel + 1, c :: rest, acc =>
    if sep.isPrefixOf (c :: rest) then
      acc.reverse :: pySplitGo sep fuel (rest.drop (sep.length - 1)) []
    else
      pySplitGo sep fuel rest (c :: acc)

/-- Model of Python `str.split(sep)` for a non-empty separator `sep`:
splits at every non-overlapping occurrence of `sep` (scanning left to
right), keeping empty fields, e.g. `"-5".split('-') == ['', '5']`. -/
def pySplitChars (sep s : List Char) : List (List Char) := pySplitGo sep s.length s []

/-- Model of Python `str.split(sep)` on `String`s. -/
def pySplit (s sep : String) : List String :=
  (pySplitChars sep.data s.data).map String.mk

/-- Digit accumulator for `pyFloat`. -/
def digitsVal : List Char → Nat
  | [] => 0
  | c :: r => (c.toNat - '0'.toNat) * 10 ^ r.length + digitsVal r

/-- Model of Python `float(s)` restricted to the decimal grammar the
program can feed it: optional surrounding whitespace, an optional sign,
digits with at most one `.` (at least one digit overall), and an optional
`e`/`E` exponent.  The special forms `inf`/`nan` and underscore digit
separators, which never arise from this program's data, are not modelled:
for them this function returns `none`. -/
def pyFloatCore (s : List Char) : Option ℚ :=
  let (sign, rest) :=
    match s with
    | '-' :: r => ((-1 : ℚ), r)
    | '+' :: r => ((1 : ℚ), r)
    | r => ((1 : ℚ), r)
  let (mantissa, rest) := (rest.takeWhile Char.isDigit, rest.dropWhile Char.isDigit)
  let (frac, rest) :=
    match rest with
    | '.' :: r => (r.takeWhile Char.isDigit, ('.' :: r.dropWhile Char.isDigit : List Char))
    | r => (([] : List Char), r)
  let rest := match rest with | '.' :: r => r | r => r
  if mantissa.isEmpty && frac.isEmpty then none
  else
    let base : ℚ := sign * ((digitsVal mantissa : ℚ) + (digitsVal frac : ℚ) / (10 : ℚ) ^ frac.length)
    match rest with
    | [] => some base
    | e :: r =>
      if e = 'e' || e = 'E' then
        let (esign, edigits) :=
          match r with
          | '-' :: r' => ((-1 : ℤ), r')
          | '+' :: r' => ((1 : ℤ), r')
          | r' => ((1 : ℤ), r')
        if edigits.isEmpty || !(edigits.all Char.isDigit) then none
        else some (base * (10 : ℚ) ^ (esign * (digitsVal edigits : ℤ)))
      else none

/-- Model of Python `float(s)`: `none` models a raised `ValueError`. -/
def pyFloat (s : String) : Option ℚ := pyFloatCore (pyStripChars s.data)

/-! ## Data model

A record of the tabular pipeline: one dict with the six keys produced by
`extract_all_data_from_pdf` / `handle_upload`.  `Name` and `Date` may be
Python `None` (no regex match in the document), hence `Option String`. -/

structure Entry where
  name : Option String
  date : Option String
  testName : String
  value : String
  unit : String
  referenceRange : String
deriving DecidableEq, Repr

/-- The `VALID_UNITS` allow-list of `src/app.py`, verbatim. -/
def VALID_UNITS : List String :=
  ["g/dL", "mg/dL", "mmol/L", "IU/L", "%", "fl", "pg", "pg/mL", "µL", "nmol/L",
   "µIU/mL", "mL/min/1.73m2", "U/L", "thou/mm3"]

/-- The `VALID_TEST_NAMES` allow-list of `src/app.py` (verbatim, including
the duplicated entries present in the source). -/
def VALID_TEST_NAMES : List String :=
  ["Creatinine", "GFR Estimated", "Glucose Fasting", "Cyanocobalamin",
   "Hemoglobin", "RBC", "WBC", "Platelets", "Cholesterol", "25 Hydroxy", "T3, Total", "T4, Total",
   "TSH", "Phosphorus", "Sodium", "Potassium", "Chloride", "GFR Category G2",
   "Urea", "Urea Nitrogen Blood", "Total", "Triglycerides", "HDL Cholesterol",
   "Calculated", "HDL Cholesterol",
   "Uric Acid", "GGTP", "00 RBC Count", "HbA1c", "MCV", "MCH", "MCHC", "Segmented Neutrophils",
   "Lymphocytes", "Monocytes", "Eosinophils", "Basophils", "Absolute Leucocyte Count",
   "Neutrophils", "Lymphocytes", "Monocytes", "Eosinophils", "Basophils", "Platelet Count",
   "Bilirubin Direct", "Bilirubin Total", "Bilirubin Indirect", "Total Protein", "Albumin", "G Ratio"]

/-- Model of `clean_data` of `src/app.py`: the loop appending every entry whose
`'Test Name'` is in `VALID_TEST_NAMES` and whose `'Unit'` is in
`VALID_UNITS`. -/
def clean_data : List Entry → List Entry
  | [] => []
  | e :: rest =>
    if VALID_TEST_NAMES.contains e.testName && VALID_UNITS.contains e.unit then
      e :: clean_data rest
    else
      clean_data rest

/-! ## Range classification (`analyze_test_results`) -/

/-- The three-way classification produced by `analyze_test_results`. -/
inductive Category where
  | Low
  | Normal
  | High
deriving DecidableEq, Repr

/-- Normalized reference-range interpretation (the spec's `ReferenceRange`
variant): either `Bounded{low, high}` or one-sided with a `<` or other
leading sign. -/
inductive RangeKind where
  | bounded (low high : ℚ)
  | oneLess (threshold : ℚ)
  | oneGreater (threshold : ℚ)
deriving DecidableEq, Repr

/-- The bounded branch of `analyze_test_results` (lines 203-204): both split
parts are stripped and passed to `float`, either failure raising
`ValueError`. -/
def boundedBranch (r : String) : Except Unit RangeKind :=
  match pyFloat (pyStrip ((pySplit r "-").getD 0 "")),
        pyFloat (pyStrip ((pySplit r "-").getD 1 "")) with
  | some low, some high => .ok (.bounded low high)
  | _, _ => .error ()

/-- The one-sided branch of `analyze_test_results` (lines 212-222):
`sign = range[0]` raises `IndexError` on an empty string, the rest of the
string goes through `float`, and any leading character other than `<`
takes the greater-than branch. -/
def oneSidedBranch (r : String) : Except Unit RangeKind :=
  match r.data with
  | [] => .error ()
  | sign :: rest =>
    match pyFloat (String.mk rest) with
    | some t => .ok (if sign = '<' then .oneLess t else .oneGreater t)
    | none => .error ()

/-- Which interpretation `analyze_test_results` gives a reference-range
string: the bounded branch is taken exactly when splitting on `'-'` yields
exactly two parts (line 202), with no further check on the parts. -/
def parseRangeCode (r : String) : Except Unit RangeKind :=
  if (pySplit r "-").length = 2 then boundedBranch r else oneSidedBranch r

/-- The classification policy applied to a parsed range, exactly as the
`if`/`elif`/`else` ladders of `analyze_test_results` order the
comparisons. -/
def specCategory (rk : RangeKind) (value : ℚ) : Category :=
  match rk with
  | .bounded low high =>
    if value < low then .Low else if value > high then .High else .Normal
  | .oneLess t => if value > t then .High else .Normal
  | .oneGreater t => if value < t then .Low else .Normal

/-- The body of the `for item in data` loop of `analyze_test_results`,
line by line: `float(item['Value'])` first (raising on a non-numeric
value), then the split-length test, then either the bounded comparisons or
the first-character dispatch.  An `Except.error` models an uncaught Python
exception. -/
def classifyOne (item : Entry) : Except Unit Category :=
  match pyFloat item.value with
  | none => .error ()
  | some value =>
    if (pySplit item.referenceRange "-").length = 2 then
      match pyFloat (pyStrip ((pySplit item.referenceRange "-").getD 0 "")) with
      | none => .error ()
      | some low =>
        match pyFloat (pyStrip ((pySplit item.referenceRange "-").getD 1 "")) with
        | none => .error ()
        | some high =>
          .ok (if value < low then .Low else if value > high then .High else .Normal)
    else
      match item.referenceRange.data with
      | [] => .error ()
      | sign :: rest =>
        if sign = '<' then
          match pyFloat (String.mk rest) with
          | none => .error ()
          | some t => .ok (if value > t then .High else .Normal)
        else
          match pyFloat (String.mk rest) with
          | none => .error ()
          | some t => .ok (if value < t then .Low else .Normal)

/-- Sequencing of per-record computations inside one Dash callback: the
first uncaught exception aborts the whole callback, so the whole batch
fails as soon as one record fails. -/
def mapExcept (f : α → Except Unit β) : List α → Except Unit (List β)
  | [] => .ok []
  | a :: l =>
    match f a with
    | .error e => .error e
    | .ok b =>
      match mapExcept f l with
      | .error e => .error e
      | .ok bs => .ok (b :: bs)

/-- Model of `analyze_test_results` of `src/app.py`: classifies every row of the
table, pairing each row with its computed `'Category'`; any raised
exception aborts the whole callback (no partial output is delivered). -/
def analyze_test_results (data : List Entry) : Except Unit (List (Entry × Category)) :=
  mapExcept (fun item => (classifyOne item).map (fun c => (item, c))) data

/-! ## A backtracking regex engine with Python `re` semantics

Only the constructs used by the three patterns of
`extract_all_data_from_pdf` are represented: character classes, greedy
`*` / `+` / `{m,n}` over a class, ordered alternation, optional groups,
capture groups and the word boundary `\b`.  Matching follows CPython's
backtracking order (greedy quantifiers try the longest repetition first,
alternation tries the left branch first), so the captures of the first
reported match coincide with `re`'s. -/

/-- Capture store: last write per group index wins. -/
abbrev Caps := List (Nat × List Char)

/-- Record a capture. -/
def setCap (caps : Caps) (i : Nat) (v : List Char) : Caps :=
  (i, v) :: caps.filter (fun p => p.1 ≠ i)

/-- Look up a capture. -/
def getCap (caps : Caps) (i : Nat) : Option (List Char) :=
  (caps.find? (fun p => p.1 = i)).map Prod.snd

/-- Matcher state: the character just before the current position (for
`\b`), the remaining input, and the captures recorded so far. -/
structure MState where
  prev : Option Char
  rest : List Char
  caps : Caps
deriving Repr

/-- Regex abstract syntax (the fragment used by `src/app.py`). -/
inductive RE where
  | eps
  | cls (p : Char → Bool)
  | seq (a b : RE)
  | alt (a b : RE)
  | starCls (p : Char → Bool)
  | repCls (p : Char → Bool) (lo hi : Nat)
  | group (i : Nat) (a : RE)
  | wb

/-- Length of the maximal prefix run of characters in a class. -/
def runLen (p : Char → Bool) : List Char → Nat
  | [] => 0
  | c :: r => if p c then runLen p r + 1 else 0

/-- Advance a state by `n` characters (callers keep `n` within the
input). -/
def consumeN (st : MState) (n : Nat) : MState :=
  { prev := match (st.rest.take n).getLast? with
            | some c => some c
            | none => st.prev,
    rest := st.rest.drop n,
    caps := st.caps }

/-- Greedy repetition: try consuming `i` characters, then `i - 1`, …,
down to `lo`, returning the first continuation success (Python's greedy
backtracking order). -/
def tryFrom (st : MState) (k : MState → Option MState) (lo : Nat) : Nat → Option MState
  | 0 => k (consumeN st 0)
  | j + 1 =>
    match k (consumeN st (j + 1)) with
    | some res => some res
    | none => if j + 1 ≤ lo then none else tryFrom st k lo j

/-- The CPS backtracking matcher.  `k` receives the state after the
current sub-pattern; the first success in backtracking order is
returned, as in CPython's `re`. -/
def matchHere : RE → MState → (MState → Option MState) → Option MState
  | .eps, st, k => k st
  | .cls p, st, k =>
    match st.rest with
    | [] => none
    | c :: r => if p c then k ⟨some c, r, st.caps⟩ else none
  | .seq a b, st, k => matchHere a st (fun st' => matchHere b st' k)
  | .alt a b, st, k =>
    match matchHere a st k with
    | some res => some res
    | none => matchHere b st k
  | .starCls p, st, k => tryFrom st k 0 (runLen p st.rest)
  | .repCls p lo hi, st, k =>
    let r := runLen p st.rest
    if r < lo then none else tryFrom st k lo (min hi r)
  | .group i a, st, k =>
    matchHere a st (fun st' =>
      k { st' with caps := setCap st'.caps i (st.rest.take (st.rest.length - st'.rest.length)) })
  | .wb, st, k =>
    let left := match st.prev with | some c => isWordChar c | none => false
    let right := match st.rest with | c :: _ => isWordChar c | [] => false
    if left ≠ right then k st else none

/-- Scan successive start positions (leftmost-match rule of `re.search`),
attempting a full backtracking match at each. -/
def searchAux (r : RE) (prev : Option Char) : List Char → Option MState
  | [] => matchHere r ⟨prev, [], []⟩ some
  | c :: rest =>
    match matchHere r ⟨prev, c :: rest, []⟩ some with
    | some res => some res
    | none => searchAux r (some c) rest

/-- Model of `re.search(pattern, text)`: the state of the first match, or
`none`. -/
def reSearch (r : RE) (text : List Char) : Option MState := searchAux r none text

/-- Model of `re.findall`: collect the captures of successive
non-overlapping leftmost matches, resuming after each match (advancing one
character after an empty match). -/
def findallAux (r : RE) (prev : Option Char) (s : List Char) : Nat → List Caps
  | 0 => []
  | fuel + 1 =>
    match searchAux r prev s with
    | none => []
    | some res =>
      res.caps ::
        (if res.rest.length < s.length then
          findallAux r res.prev res.rest fuel
        else
          match res.rest with
          | [] => []
          | c :: rest => findallAux r (some c) rest fuel)

/-- Model of `re.findall(pattern, text)`. -/
def reFindall (r : RE) (text : List Char) : List Caps :=
  findallAux r none text (text.length + 1)

/-! ## The three patterns of `extract_all_data_from_pdf` -/

/-- Literal string as a regex. -/
def litRE : List Char → RE
  | [] => .eps
  | c :: r => .seq (.cls (fun x => x = c)) (litRE r)

/-- Encoding of `+` over a character class: one character, then a greedy run. -/
def plusCls (p : Char → Bool) : RE := .seq (.cls p) (.starCls p)

/-- Greedy `?`: try the sub-pattern first, then the empty match. -/
def optRE (r : RE) : RE := .alt r .eps

/-- The class `[\w\s]`. -/
def wordOrSpace (c : Char) : Bool := isWordChar c || pySpaceChar c

/-- The class `[\d.,]`. -/
def digitDotComma (c : Char) : Bool := c.isDigit || c = '.' || c = ','

/-- The class `[^\s]`. -/
def nonSpace (c : Char) : Bool := !pySpaceChar c

/-- The class matched by `.` (anything but a newline). -/
def dotAny (c : Char) : Bool := c ≠ '\n'

/-- The test-data pattern `([\w\s]+):?\s+([\d.,]+)\s*([^\s]*)\s*(.*)`
(line 51 of `src/app.py`). -/
def obsPattern : RE :=
  .seq (.group 1 (plusCls wordOrSpace))
    (.seq (optRE (.cls (fun c => c = ':')))
      (.seq (plusCls pySpaceChar)
        (.seq (.group 2 (plusCls digitDotComma))
          (.seq (.starCls pySpaceChar)
            (.seq (.group 3 (.starCls nonSpace))
              (.seq (.starCls pySpaceChar)
                (.group 4 (.starCls dotAny))))))))

/-- The name pattern
`Name\s*:\s*(?:Mr\.|Ms\.)?\s*([A-Za-z]+\s+[A-Za-z]+)` (line 55). -/
def namePattern : RE :=
  .seq (litRE "Name".data)
    (.seq (.starCls pySpaceChar)
      (.seq (.cls (fun c => c = ':'))
        (.seq (.starCls pySpaceChar)
          (.seq (optRE (.alt (litRE "Mr.".data) (litRE "Ms.".data)))
            (.seq (.starCls pySpaceChar)
              (.group 1
                (.seq (plusCls Char.isAlpha)
                  (.seq (plusCls pySpaceChar) (plusCls Char.isAlpha)))))))))

/-- The date pattern `\b\d{1,2}\/\d{1,2}\/\d{4}\b` (line 56), wrapped in
group 0 so the full matched text (`match.group()`) is recoverable. -/
def datePattern : RE :=
  .group 0
    (.seq .wb
      (.seq (.repCls Char.isDigit 1 2)
        (.seq (.cls (fun c => c = '/'))
          (.seq (.repCls Char.isDigit 1 2)
            (.seq (.cls (fun c => c = '/'))
              (.seq (.repCls Char.isDigit 4 4) .wb))))))

/-- Model of `extract_all_data_from_pdf` of `src/app.py`, taking the already
concatenated page text as input (turning PDF pages into text via
`pdfplumber` is the external document-text-extraction collaborator): run
`re.findall` with the generic observation pattern, `re.search` for the
patient name and the collection date, attach the document-level name/date
to every match, strip the four captured fields, and filter through
`clean_data`. -/
def extract_all_data_from_pdf (text : String) : List Entry :=
  let ms := reFindall obsPattern text.data
  let patient_name : Option String :=
    match reSearch namePattern text.data with
    | some st => (getCap st.caps 1).map String.mk
    | none => none
  let collection_date : Option String :=
    match reSearch datePattern text.data with
    | some st => (getCap st.caps 0).map String.mk
    | none => none
  clean_data (ms.map (fun caps =>
    { name := patient_name,
      date := collection_date,
      testName := pyStrip (String.mk ((getCap caps 1).getD [])),
      value := pyStrip (String.mk ((getCap caps 2).getD [])),
      unit := pyStrip (String.mk ((getCap caps 3).getD [])),
      referenceRange := pyStrip (String.mk ((getCap caps 4).getD [])) }))

/-- The data-shaping part of `handle_upload`: rebuild each extracted entry
as a table row field for field, and offer as dropdown options the deduped
patient names that are truthy (Python `if name` drops both `None` and the
empty string).  Python's `list(set(...))` iteration order is unspecified,
so the model dedupes with `List.dedup`; every claim about the options is a
membership statement, independent of that order. -/
def handle_upload (files_data : List Entry) : List Entry × List String :=
  if files_data.isEmpty then ([], [])
  else
    let table_data := files_data.map (fun e =>
      { name := e.name, date := e.date, testName := e.testName,
        value := e.value, unit := e.unit, referenceRange := e.referenceRange })
    let unique_names := (files_data.map (fun e => e.name)).dedup
    let dropdown := unique_names.filterMap (fun n =>
      match n with
      | some s => if s = "" then none else some s
      | none => none)
    (table_data, dropdown)

/-- The extraction → validation → classification pipeline on one
document's text, as wired through the Dash callbacks: `handle_upload`
feeds the extracted-and-cleaned rows to the table, and
`analyze_test_results` classifies the table rows. -/
def fullPipeline (text : String) : Except Unit (List (Entry × Category)) :=
  analyze_test_results (handle_upload (extract_all_data_from_pdf text)).1

/-! ## Dates and the chart aggregation (`update_charts`) -/

/-- Gregorian leap-year rule, as `datetime` uses it. -/
def isLeap (y : ℕ) : Bool := y % 4 = 0 && (y % 100 ≠ 0 || y % 400 = 0)

/-- Days in a month, as `datetime` validates them. -/
def daysInMonth (y m : ℕ) : ℕ :=
  if m = 2 then (if isLeap y then 29 else 28)
  else if m = 4 || m = 6 || m = 9 || m = 11 then 30
  else 31

/-- Model of `datetime.strptime(s, '%d/%m/%Y')`, day/month/year order:
one-or-two-digit day in the valid range for the month, one-or-two-digit
month `1..12`, exactly four-digit year, separated by `/` with nothing left
over; the result is the chronologically ordered key `(year, month, day)`.
`none` models the raised `ValueError`. -/
def strptimeDMY (s : String) : Option (ℕ × ℕ × ℕ) :=
  match (pySplit s "/").map String.data with
  | [d, m, y] =>
    if d.all Char.isDigit && m.all Char.isDigit && y.all Char.isDigit &&
        decide (1 ≤ d.length) && decide (d.length ≤ 2) &&
        decide (1 ≤ m.length) && decide (m.length ≤ 2) && decide (y.length = 4) then
      let dv := digitsVal d
      let mv := digitsVal m
      let yv := digitsVal y
      if decide (1 ≤ yv) && decide (1 ≤ mv) && decide (mv ≤ 12) &&
          decide (1 ≤ dv) && decide (dv ≤ daysInMonth yv mv) then
        some (yv, mv, dv)
      else none
    else none
  | _ => none

/-- Date of a table row: `row['Date']` may be `None`, on which `strptime`
also raises. -/
def rowDate (d : Option String) : Option (ℕ × ℕ × ℕ) :=
  match d with
  | some s => strptimeDMY s
  | none => none

/-- Chronological order on `(year, month, day)` keys: exactly the order of
the parsed `datetime` values. -/
def dateLe (a b : ℕ × ℕ × ℕ) : Prop :=
  a.1 < b.1 ∨ (a.1 = b.1 ∧ (a.2.1 < b.2.1 ∨ (a.2.1 = b.2.1 ∧ a.2.2 ≤ b.2.2)))

instance : DecidableRel dateLe := fun a b => by unfold dateLe; infer_instance

/-- The order used by `sorted(..., key=lambda x: x[0], reverse=True)`:
newest date first. -/
def ptDesc (a b : (ℕ × ℕ × ℕ) × ℚ) : Prop := dateLe b.1 a.1

instance : DecidableRel ptDesc := fun a b => by unfold ptDesc; infer_instance

instance : IsTotal ((ℕ × ℕ × ℕ) × ℚ) ptDesc :=
  ⟨by intro a b; unfold ptDesc dateLe; omega⟩

instance : IsTrans ((ℕ × ℕ × ℕ) × ℚ) ptDesc :=
  ⟨by intro a b c; unfold ptDesc dateLe; omega⟩

/-- The filter deciding whether a row enters `test_data` for a selected
patient: `row['Name'] in selected_names` (Python `None in [strings]` is
`False`) and `row['Value'] != 'N/A'`. -/
def rowSelected (n : Option String) (selected : List String) : Bool :=
  match n with
  | some s => selected.contains s
  | none => false

/-- The rows grouped under `test_data[p][t]` when `p` is selected: rows of
patient `p` and test `t` with a usable value, in table order (the order in
which the grouping loop appends them). -/
def chartRows (table : List Entry) (p t : String) : List Entry :=
  table.filter (fun r => r.name == some p && r.testName == t && r.value != "N/A")

/-- First-occurrence deduplication, matching the insertion order of the
keys of a Python dict. -/
def dedupFirst (seen : List String) : List String → List String
  | [] => []
  | a :: l => if seen.contains a then dedupFirst seen l else a :: dedupFirst (a :: seen) l

/-- The test names the chart loop iterates over:
`test_data[selected_names[0]].keys()` — only the tests of the FIRST
selected patient, in first-appearance order. -/
def testsOfFirst (table : List Entry) (selected : List String) : List String :=
  match selected with
  | [] => []
  | first :: _ =>
    dedupFirst []
      ((table.filter (fun r => r.name == some first && r.value != "N/A")).map (fun r => r.testName))

/-- The `(test, patient)` pairs for which the chart loop builds a scatter
trace: the outer loop runs over the first selected patient's tests, the
inner loop over the selected patients having data for that test. -/
def chartPairs (table : List Entry) (selected : List String) : List (String × String) :=
  (testsOfFirst table selected).flatMap (fun t =>
    selected.filterMap (fun p =>
      if (chartRows table p t).isEmpty then none else some (t, p)))

/-- Conversion to `Except` from `Option`, for Python calls that raise on bad input. -/
def exceptOfOption (o : Option α) : Except Unit α :=
  match o with
  | some a => .ok a
  | none => .error ()

/-- One scatter trace of the chart output: the plotted `(parsed date,
value)` points in their plotted order, plus the reference-range string the
low/high annotation lines were derived from and the derived annotation
values (`low` stays a string in the source; `high` is a string in the
bounded branch and a parsed float in the one-sided branch). -/
structure Trace where
  patient : String
  test : String
  points : List ((ℕ × ℕ × ℕ) × ℚ)
  rangeUsed : String
  lowStr : String
  high : String ⊕ ℚ
deriving DecidableEq, Repr

/-- Build the trace for one charted `(test, patient)` pair, following the
body of the inner loop of `update_charts`: parse every date of the group
with `strptime('%d/%m/%Y')`, re-read the grouped float values, sort the
`(date, value)` pairs newest-first (Python's `sorted` is stable, as is
`List.insertionSort`), and take `['range'][0]` — the range string of the
group's FIRST row in table order (the ranges list is never sorted) — to
derive the low/high annotation pair via `split(' - ')`. -/
def buildTrace (table : List Entry) (tp : String × String) : Except Unit Trace :=
  match chartRows table tp.2 tp.1 with
  | [] => .error ()
  | r0 :: rtl =>
    match mapExcept (fun r => exceptOfOption (rowDate r.date)) (r0 :: rtl) with
    | .error e => .error e
    | .ok dates =>
      match mapExcept (fun r => exceptOfOption (pyFloat r.value)) (r0 :: rtl) with
      | .error e => .error e
      | .ok vals =>
        if (pySplit r0.referenceRange " - ").length = 2 then
          .ok ⟨tp.2, tp.1, List.insertionSort ptDesc (dates.zip vals), r0.referenceRange,
               (pySplit r0.referenceRange " - ").getD 0 "",
               .inl ((pySplit r0.referenceRange " - ").getD 1 "")⟩
        else
          match pyFloat (((pySplit r0.referenceRange " - ").getD 0 "").drop 1) with
          | some h => .ok ⟨tp.2, tp.1, List.insertionSort ptDesc (dates.zip vals),
                           r0.referenceRange, (pySplit r0.referenceRange " - ").getD 0 "", .inr h⟩
          | none => .error ()

/-- Model of `update_charts` of `src/app.py`, reduced to its chart-data content:
empty selection or table yields no charts; otherwise the grouping loop
first parses `float(row['Value'])` for every selected usable row (an
unparseable value raises there, before any chart is built), and then one
trace is built per `(test, patient)` pair of `chartPairs`.  An
`Except.error` models an exception aborting the whole callback. -/
def update_charts (selected : List String) (table : List Entry) : Except Unit (List Trace) :=
  if selected.isEmpty || table.isEmpty then .ok []
  else
    match mapExcept (fun r => exceptOfOption (pyFloat r.value))
        (table.filter (fun r => rowSelected r.name selected && r.value != "N/A")) with
    | .error e => .error e
    | .ok _ => mapExcept (buildTrace table) (chartPairs table selected)

/-! ## Spec-side definitions (for comparison with the code) -/

/-- The condition the spec states for the bounded interpretation:
splitting on `-` yields exactly two non-empty trimmed numeric parts. -/
def claimBoundedCond (r : String) : Bool :=
  (pySplit r "-").length = 2 &&
  (pySplit r "-").all (fun part => pyStrip part ≠ "" && (pyFloat (pyStrip part)).isSome)

/-- Ascending chronological order on entries by their parsed collection
date (entries without a parseable date sort by a dummy smallest key; the
comparisons of interest are between parseable dates). -/
def chronLe (a b : Entry) : Prop :=
  dateLe ((rowDate a.date).getD (0, 0, 0)) ((rowDate b.date).getD (0, 0, 0))

instance : DecidableRel chronLe := fun a b => by unfold chronLe; infer_instance

/-- The reference range of the chronologically-first (earliest-dated)
observation of a series, per the spec's stated policy. -/
def chronFirstRange (rows : List Entry) : Option String :=
  (List.insertionSort chronLe rows).head?.map (fun r => r.referenceRange)

/-! ## Concrete fixtures used by counterexamples and witnesses -/

/-- A well-formed observation (Scenario A's expected record). -/
def eHgb : Entry :=
  ⟨some "John Smith", some "12/03/2023", "Hemoglobin", "13.5", "g/dL", "13.0 - 17.0"⟩

/-- An observation whose `Value` is not parseable as a number. -/
def eBadVal : Entry := ⟨some "John Smith", some "12/03/2023", "WBC", "abc", "µL", "4 - 10"⟩

/-- Alice's newer Hemoglobin observation (appears first in table order). -/
def rA1 : Entry := ⟨some "Alice", some "01/01/2024", "Hemoglobin", "14.0", "g/dL", "10 - 20"⟩

/-- Alice's older Hemoglobin observation, carrying a different range. -/
def rA2 : Entry := ⟨some "Alice", some "01/01/2023", "Hemoglobin", "13.0", "g/dL", "30 - 40"⟩

/-- Bob's TSH observation: the test `TSH` occurs only for Bob. -/
def rB1 : Entry := ⟨some "Bob", some "02/01/2023", "TSH", "2.0", "µIU/mL", "0.4 - 4.2"⟩

/-- A row whose patient name was not extracted. -/
def rNoName : Entry := ⟨none, some "03/01/2023", "RBC", "4.5", "µL", "3.5 - 5.5"⟩

/-- The trace `update_charts ["Alice"] [rA1, rA2]` produces: points sorted
newest-first, annotation range taken from `rA1` (first in table order). -/
def trAlice : Trace :=
  ⟨"Alice", "Hemoglobin", [((2024, 1, 1), 14), ((2023, 1, 1), 13)], "10 - 20", "10", .inl "20"⟩

/-! ## Helper lemmas -/

lemma exceptOfOption_ok_iff {o : Option α} {b : α} :
    exceptOfOption o = .ok b ↔ o = some b := by
  cases o <;> simp [exceptOfOption]

lemma mapExcept_ok_forall₂ {f : α → Except Unit β} {l : List α} {res : List β} :
    mapExcept f l = .ok res ↔ List.Forall₂ (fun a b => f a = .ok b) l res := by
  induction l generalizing res with
  | nil => cases res <;> simp [mapExcept]
  | cons a l ih =>
    cases hfa : f a with
    | error e =>
      simp only [mapExcept, hfa]
      constructor
      · intro h; cases h
      · intro hF
        cases res with
        | nil => cases hF
        | cons b' res' =>
          cases hF with
          | cons hfb _ => rw [hfa] at hfb; cases hfb
    | ok b =>
      cases hrec : mapExcept f l with
      | error e =>
        simp only [mapExcept, hfa, hrec]
        constructor
        · intro h; cases h
        · intro hF
          cases res with
          | nil => cases hF
          | cons b' res' =>
            cases hF with
            | cons hfb htl =>
              have := ih.mpr htl
              rw [hrec] at this
              cases this
      | ok bs =>
        simp only [mapExcept, hfa, hrec]
        cases res with
        | nil =>
          constructor
          · intro h; cases h
          · intro hF; cases hF
        | cons b' res' =>
          simp only [Except.ok.injEq, List.cons.injEq, List.forall₂_cons]
          constructor
          · rintro ⟨rfl, rfl⟩
            exact ⟨hfa, ih.mp hrec⟩
          · rintro ⟨hfa', hf⟩
            have h2 : mapExcept f l = .ok res' := ih.mpr hf
            rw [hrec] at h2
            cases h2
            rw [hfa] at hfa'
            cases hfa'
            exact ⟨rfl, rfl⟩

lemma mapExcept_error_of_mem {f : α → Except Unit β} {l : List α} {a : α}
    (ha : a ∈ l) (hfa : f a = .error ()) : mapExcept f l = .error () := by
  induction l with
  | nil => cases ha
  | cons x xs ih =>
    rcases List.mem_cons.mp ha with rfl | hmem
    · simp [mapExcept, hfa]
    · cases hfx : f x with
      | error e => simp [mapExcept, hfx]
      | ok b => simp [mapExcept, hfx, ih hmem]

lemma mapExcept_ok_mem_right {f : α → Except Unit β} :
    ∀ {l : List α} {res : List β} {b : β},
      mapExcept f l = .ok res → b ∈ res → ∃ a ∈ l, f a = .ok b
  | [], res, b, h, hb => by
    simp only [mapExcept, Except.ok.injEq] at h
    subst h; cases hb
  | x :: xs, res, b, h, hb => by
    cases hfx : f x with
    | error e => simp [mapExcept, hfx] at h
    | ok bx =>
      cases hrec : mapExcept f xs with
      | error e => simp [mapExcept, hfx, hrec] at h
      | ok bs =>
        simp only [mapExcept, hfx, hrec, Except.ok.injEq] at h
        subst h
        rcases List.mem_cons.mp hb with rfl | hmem
        · exact ⟨x, List.mem_cons_self _ _, hfx⟩
        · obtain ⟨a, hal, hfa⟩ := mapExcept_ok_mem_right hrec hmem
          exact ⟨a, List.mem_cons_of_mem _ hal, hfa⟩

lemma mapExcept_ok_mem_left {f : α → Except Unit β} :
    ∀ {l : List α} {res : List β} {a : α},
      mapExcept f l = .ok res → a ∈ l → ∃ b ∈ res, f a = .ok b
  | [], _, a, _, ha => by cases ha
  | x :: xs, res, a, h, ha => by
    cases hfx : f x with
    | error e => simp [mapExcept, hfx] at h
    | ok bx =>
      cases hrec : mapExcept f xs with
      | error e => simp [mapExcept, hfx, hrec] at h
      | ok bs =>
        simp only [mapExcept, hfx, hrec, Except.ok.injEq] at h
        subst h
        rcases List.mem_cons.mp ha with rfl | hmem
        · exact ⟨bx, List.mem_cons_self _ _, hfx⟩
        · obtain ⟨b, hbl, hfb⟩ := mapExcept_ok_mem_left hrec hmem
          exact ⟨b, List.mem_cons_of_mem _ hbl, hfb⟩

lemma forall₂_zip_of {P : α → β → Prop} {Q : α → γ → Prop}
    {l : List α} {ds : List β} {vs : List γ}
    (hP : List.Forall₂ P l ds) (hQ : List.Forall₂ Q l vs) :
    List.Forall₂ (fun a q => P a q.1 ∧ Q a q.2) l (ds.zip vs) := by
  induction hP generalizing vs with
  | nil => cases hQ; exact .nil
  | cons hp _ ih =>
    cases hQ with
    | cons hq hQtl => exact .cons ⟨hp, hq⟩ (ih hQtl)

lemma clean_data_eq_filter (data : List Entry) :
    clean_data data =
      data.filter (fun e => VALID_TEST_NAMES.contains e.testName && VALID_UNITS.contains e.unit) := by
  induction data with
  | nil => rfl
  | cons e rest ih =>
    simp only [clean_data, List.filter_cons, ih]

lemma classifyOne_eq (e : Entry) :
    classifyOne e =
      match pyFloat e.value with
      | none => .error ()
      | some v => (parseRangeCode e.referenceRange).map (fun rk => specCategory rk v) := by
  cases hv : pyFloat e.value with
  | none => simp [classifyOne, hv]
  | some v =>
    simp only [classifyOne, parseRangeCode, boundedBranch, oneSidedBranch, hv]
    by_cases hlen : (pySplit e.referenceRange "-").length = 2
    · simp only [hlen, if_true]
      cases h0 : pyFloat (pyStrip ((pySplit e.referenceRange "-").getD 0 "")) <;>
        cases h1 : pyFloat (pyStrip ((pySplit e.referenceRange "-").getD 1 "")) <;>
          simp [Except.map, specCategory]
    · simp only [hlen, if_false]
      cases hd : e.referenceRange.data with
      | nil => simp [Except.map]
      | cons sign rest =>
        by_cases hs : sign = '<' <;>
          cases hf : pyFloat (String.mk rest) <;>
            simp [hs, hf, Except.map, specCategory]

lemma update_charts_ok_cases {selected : List String} {table : List Entry} {traces : List Trace}
    (h : update_charts selected table = .ok traces) :
    ((selected.isEmpty || table.isEmpty) = true ∧ traces = []) ∨
      mapExcept (buildTrace table) (chartPairs table selected) = .ok traces := by
  unfold update_charts at h
  by_cases hg : (selected.isEmpty || table.isEmpty) = true
  · rw [if_pos hg] at h
    cases h
    exact Or.inl ⟨hg, rfl⟩
  · rw [if_neg hg] at h
    cases hpre : mapExcept (fun r => exceptOfOption (pyFloat r.value))
        (table.filter (fun r => rowSelected r.name selected && r.value != "N/A")) with
    | error e => rw [hpre] at h; cases h
    | ok l => rw [hpre] at h; exact Or.inr h

lemma mem_chartPairs {table : List Entry} {selected : List String} {t p : String} :
    (t, p) ∈ chartPairs table selected ↔
      t ∈ testsOfFirst table selected ∧ p ∈ selected ∧ chartRows table p t ≠ [] := by
  unfold chartPairs
  rw [List.mem_flatMap]
  constructor
  · rintro ⟨t', ht', hmem⟩
    rw [List.mem_filterMap] at hmem
    obtain ⟨p', hp', hif⟩ := hmem
    by_cases he : (chartRows table p' t').isEmpty
    · rw [if_pos he] at hif; cases hif
    · rw [if_neg he] at hif
      injection hif with h2
      injection h2 with h3 h4
      subst h3; subst h4
      refine ⟨ht', hp', ?_⟩
      intro hnil
      exact he (by rw [hnil]; rfl)
  · rintro ⟨ht, hp, hne⟩
    refine ⟨t, ht, ?_⟩
    rw [List.mem_filterMap]
    refine ⟨p, hp, ?_⟩
    rw [if_neg (fun he => hne (List.isEmpty_iff.mp he))]

lemma buildTrace_ok_spec {table : List Entry} {t p : String} {tr : Trace}
    (h : buildTrace table (t, p) = .ok tr) :
    tr.patient = p ∧ tr.test = t ∧
    ∃ r0 rtl dates vals,
      chartRows table p t = r0 :: rtl ∧
      mapExcept (fun r => exceptOfOption (rowDate r.date)) (r0 :: rtl) = .ok dates ∧
      mapExcept (fun r => exceptOfOption (pyFloat r.value)) (r0 :: rtl) = .ok vals ∧
      tr.points = List.insertionSort ptDesc (dates.zip vals) ∧
      tr.rangeUsed = r0.referenceRange := by
  unfold buildTrace at h
  split at h
  · cases h
  next r0 rtl hcr =>
    split at h
    · cases h
    next dates hd =>
      split at h
      · cases h
      next vals hv =>
        split at h
        next hlen =>
          cases h
          exact ⟨rfl, rfl, r0, rtl, dates, vals, hcr, hd, hv, rfl, rfl⟩
        next hlen =>
          split at h
          next q hq =>
            cases h
            exact ⟨rfl, rfl, r0, rtl, dates, vals, hcr, hd, hv, rfl, rfl⟩
          next hq => cases h

/-! ## Claim C1 -/

/-- C1: for every observation that the classifier actually classifies
(value parses, range interpreted as `rk`), the assigned category follows
the spec's policy: for `Bounded{low, high}` the `if`/`elif` ladder gives
`Low` iff `value < low`, `High` iff `value > high` (and not already
`Low`), and `Normal` iff `low ≤ value ≤ high`; for `OneSided{LessThan}`
the category is `High` iff `value > threshold`, otherwise `Normal`, never
`Low`; for `OneSided{GreaterThan}` it is `Low` iff `value < threshold`,
otherwise `Normal`, never `High`. -/
theorem c1_classification_policy (e : Entry) (v : ℚ) (rk : RangeKind)
    (hv : pyFloat e.value = some v)
    (hr : parseRangeCode e.referenceRange = Except.ok rk) :
    classifyOne e = .ok (specCategory rk v) ∧
    (match rk with
     | .bounded low high =>
       (specCategory rk v = .Low ↔ v < low) ∧
       (specCategory rk v = .High ↔ low ≤ v ∧ high < v) ∧
       (specCategory rk v = .Normal ↔ low ≤ v ∧ v ≤ high)
     | .oneLess t =>
       (specCategory rk v = .High ↔ t < v) ∧
       (specCategory rk v = .Normal ↔ v ≤ t) ∧
       specCategory rk v ≠ .Low
     | .oneGreater t =>
       (specCategory rk v = .Low ↔ v < t) ∧
       (specCategory rk v = .Normal ↔ t ≤ v) ∧
       specCategory rk v ≠ .High) := by
  constructor
  · rw [classifyOne_eq, hv, hr]
    rfl
  · cases rk with
    | bounded low high =>
      simp only [specCategory]
      split_ifs with h1 h2 <;>
        refine ⟨?_, ?_, ?_⟩ <;> simp_all <;> intros <;> linarith
    | oneLess t =>
      simp only [specCategory]
      split_ifs with h1 <;> simp_all
    | oneGreater t =>
      simp only [specCategory]
      split_ifs with h1 <;> simp_all

/-- Witness for C1: the Scenario A observation, value `13.5` against
`13.0 - 17.0`. -/
theorem c1_classification_policy_witness :
    pyFloat eHgb.value = some ((27 : ℚ) / 2) ∧
    parseRangeCode eHgb.referenceRange = .ok (.bounded 13 17) ∧
    classifyOne eHgb = .ok (specCategory (.bounded 13 17) ((27 : ℚ) / 2)) :=
  ⟨by with_unfolding_all rfl, by with_unfolding_all rfl,
    (c1_classification_policy eHgb ((27 : ℚ) / 2) (.bounded 13 17)
      (by with_unfolding_all rfl) (by with_unfolding_all rfl)).1⟩

/-! ## Claim C2 -/

/-- C2: `clean_data` returns exactly the subsequence of its input whose
`'Test Name'` is in `VALID_TEST_NAMES` and whose `'Unit'` is in
`VALID_UNITS` (order preserved, entries unchanged, exact string
matching), so every surviving observation satisfies both memberships. -/
theorem c2_validator_filter (data : List Entry) :
    clean_data data =
      data.filter (fun e => VALID_TEST_NAMES.contains e.testName && VALID_UNITS.contains e.unit) ∧
    (clean_data data).Sublist data ∧
    (∀ e, e ∈ clean_data data ↔
      e ∈ data ∧ e.testName ∈ VALID_TEST_NAMES ∧ e.unit ∈ VALID_UNITS) := by
  have hf := clean_data_eq_filter data
  refine ⟨hf, ?_, ?_⟩
  · rw [hf]; exact List.filter_sublist data
  · intro e
    rw [hf, List.mem_filter]
    simp [List.elem_iff, and_assoc]

/-! ## Claim C3 -/

lemma classifyOne_error_of_bad (e : Entry)
    (h : pyFloat e.value = none ∨ e.referenceRange = "") :
    classifyOne e = .error () := by
  rcases h with h | h
  · simp [classifyOne, h]
  · cases hv : pyFloat e.value with
    | none => simp [classifyOne, hv]
    | some v =>
      have hlen : (pySplit e.referenceRange "-").length = 1 := by rw [h]; rfl
      have hdata : e.referenceRange.data = [] := by rw [h]
      simp [classifyOne, hv, hlen, hdata]

/-- Counterexample to C3: a record with an unparseable `Value` makes the
whole classification callback fail (`float` raises, nothing is returned),
even though the well-formed record alone classifies fine — the rest of the
batch is NOT still classified. -/
theorem c3_counterexample :
    analyze_test_results [eHgb, eBadVal] = .error () ∧
    analyze_test_results [eHgb] = .ok [(eHgb, .Normal)] :=
  ⟨by with_unfolding_all rfl, by with_unfolding_all rfl⟩

/-- C3 as amended: a record whose `Value` does not parse or whose
`Reference Range` is empty aborts the whole batch — `analyze_test_results`
raises, and no record of the batch (malformed or not) is classified. -/
theorem c3_malformed_aborts_batch (data : List Entry) (e : Entry)
    (he : e ∈ data) (hbad : pyFloat e.value = none ∨ e.referenceRange = "") :
    analyze_test_results data = .error () := by
  unfold analyze_test_results
  apply mapExcept_error_of_mem he
  rw [classifyOne_error_of_bad e hbad]
  rfl

/-- Witness for C3 (amended): the two-record batch with one bad value. -/
theorem c3_malformed_aborts_batch_witness :
    eBadVal ∈ [eHgb, eBadVal] ∧ pyFloat eBadVal.value = none ∧
    analyze_test_results [eHgb, eBadVal] = .error () :=
  ⟨by simp, by with_unfolding_all rfl,
    c3_malformed_aborts_batch [eHgb, eBadVal] eBadVal (by simp)
      (Or.inl (by with_unfolding_all rfl))⟩

/-! ## Claim C4 -/

/-- Counterexample to C4: for the range string `"-5"`, splitting on `-`
yields `["", "5"]` — not two non-empty numeric parts, so the claim says
the one-sided branch (which would read it as `GreaterThan 5`) handles it;
but the code takes the bounded branch (the split has length 2) and
`float('')` raises, so classification of such an observation fails
instead. -/
theorem c4_counterexample :
    (pySplit "-5" "-").length = 2 ∧
    claimBoundedCond "-5" = false ∧
    oneSidedBranch "-5" = .ok (.oneGreater 5) ∧
    parseRangeCode "-5" = .error () ∧
    classifyOne ⟨none, none, "Sodium", "5", "mmol/L", "-5"⟩ = .error () :=
  ⟨by with_unfolding_all rfl, by with_unfolding_all rfl, by with_unfolding_all rfl,
    by with_unfolding_all rfl, by with_unfolding_all rfl⟩

/-- C4 as amended: the classifier takes the bounded branch exactly when
splitting on `-` yields exactly two parts, empty or not, numeric or not; a
two-part split whose parts do not both parse as numbers makes
classification fail (it is not redirected to the one-sided branch), and
only strings whose split count differs from two reach the one-sided branch
keyed on the first character. -/
theorem c4_branch_selection (e : Entry) (v : ℚ) (hv : pyFloat e.value = some v) :
    ((pySplit e.referenceRange "-").length = 2 →
      classifyOne e = (boundedBranch e.referenceRange).map (fun rk => specCategory rk v)) ∧
    ((pySplit e.referenceRange "-").length ≠ 2 →
      classifyOne e = (oneSidedBranch e.referenceRange).map (fun rk => specCategory rk v)) := by
  rw [classifyOne_eq, hv]
  unfold parseRangeCode
  constructor
  · intro hlen; rw [if_pos hlen]
  · intro hlen; rw [if_neg hlen]

/-- Witness for C4 (amended): the Scenario A entry goes through the
bounded branch; an entry with range `"<4.5"` goes through the one-sided
branch. -/
theorem c4_branch_selection_witness :
    pyFloat eHgb.value = some ((27 : ℚ) / 2) ∧
    classifyOne eHgb =
      (boundedBranch eHgb.referenceRange).map (fun rk => specCategory rk ((27 : ℚ) / 2)) :=
  ⟨by with_unfolding_all rfl,
    (c4_branch_selection eHgb ((27 : ℚ) / 2) (by with_unfolding_all rfl)).1
      (by with_unfolding_all rfl)⟩

/-! ## Claim C5 -/

/-- Counterexample to C5: with the three elements in their natural report
order — name line, then the date, then the test line — the generic
extraction pattern's final `(.*)` group of the match around the date
swallows the whole `Hemoglobin` line (the `\s*` before it crosses the
newline), so the single raw match is `(' John Smith', '12', '/03/2023',
'Hemoglobin 13.5 g/dL 13.0 - 17.0')`, which the validator drops: the
pipeline yields ZERO classified observations, not one. -/
theorem c5_counterexample :
    extract_all_data_from_pdf
        "Name: Mr. John Smith\n12/03/2023\nHemoglobin 13.5 g/dL 13.0 - 17.0" = [] ∧
    fullPipeline
        "Name: Mr. John Smith\n12/03/2023\nHemoglobin 13.5 g/dL 13.0 - 17.0" = .ok [] :=
  ⟨by with_unfolding_all rfl, by with_unfolding_all rfl⟩

/-- C5 as amended: for a document text containing the same three elements
with the test line placed before the name and date lines, the full
pipeline produces exactly the one expected classified observation of
Scenario A. -/
theorem c5_scenario_a :
    fullPipeline "Hemoglobin 13.5 g/dL 13.0 - 17.0\nName: Mr. John Smith\n12/03/2023" =
      .ok [(⟨some "John Smith", some "12/03/2023", "Hemoglobin", "13.5", "g/dL", "13.0 - 17.0"⟩,
        Category.Normal)] := by
  with_unfolding_all rfl

/-! ## Claim C6 -/

/-- Counterexample to C6: with `["Alice", "Bob"]` selected, Alice having a
`Hemoglobin` observation and Bob a `TSH` observation, the pair
`(Bob, TSH)` is present among the selected patients, yet the aggregator
produces only Alice's `Hemoglobin` series — the chart loop iterates over
`test_data[selected_names[0]].keys()`, so a test occurring only for a
patient other than the first selected one yields no series. -/
theorem c6_counterexample :
    chartRows [rA1, rB1] "Bob" "TSH" ≠ [] ∧
    "Bob" ∈ (["Alice", "Bob"] : List String) ∧
    update_charts ["Alice", "Bob"] [rA1, rB1] =
      .ok [⟨"Alice", "Hemoglobin", [((2024, 1, 1), 14)], "10 - 20", "10", .inl "20"⟩] ∧
    (∀ tr ∈ [(⟨"Alice", "Hemoglobin", [((2024, 1, 1), 14)], "10 - 20", "10",
        .inl "20"⟩ : Trace)], ¬(tr.patient = "Bob" ∧ tr.test = "TSH")) :=
  ⟨by decide, by decide, by with_unfolding_all rfl, by decide⟩

/-- C6 as amended: the aggregator produces a series for `(p, t)` exactly
when `t` is a test of the FIRST selected patient, `p` is selected, and `p`
has observations for `t`; pairs whose test occurs only for a non-first
selected patient produce no series.  Every produced trace is the
deterministic series built for its pair (so it carries every observation
of that pair). -/
theorem c6_series_only_for_first_patients_tests
    (selected : List String) (table : List Entry) (traces : List Trace)
    (h : update_charts selected table = .ok traces) :
    (∀ p t, (∃ tr ∈ traces, tr.patient = p ∧ tr.test = t) ↔
      t ∈ testsOfFirst table selected ∧ p ∈ selected ∧ chartRows table p t ≠ []) ∧
    (∀ tr ∈ traces, buildTrace table (tr.test, tr.patient) = .ok tr) := by
  rcases update_charts_ok_cases h with ⟨hg, rfl⟩ | hmap
  · constructor
    · intro p t
      constructor
      · rintro ⟨tr, htr, -⟩
        cases htr
      · rintro ⟨ht, hp, hne⟩
        exfalso
        simp only [Bool.or_eq_true, List.isEmpty_iff] at hg
        rcases hg with rfl | rfl
        · cases hp
        · exact hne rfl
    · intro tr htr
      cases htr
  · constructor
    · intro p t
      constructor
      · rintro ⟨tr, htr, hpat, htest⟩
        obtain ⟨⟨t', p'⟩, hpair, hb⟩ := mapExcept_ok_mem_right hmap htr
        obtain ⟨h1, h2, -⟩ := buildTrace_ok_spec hb
        rw [hpat] at h1
        rw [htest] at h2
        subst h1
        subst h2
        exact mem_chartPairs.mp hpair
      · rintro ⟨ht, hp, hne⟩
        obtain ⟨tr, htr, hb⟩ := mapExcept_ok_mem_left hmap (mem_chartPairs.mpr ⟨ht, hp, hne⟩)
        obtain ⟨h1, h2, -⟩ := buildTrace_ok_spec hb
        exact ⟨tr, htr, h1, h2⟩
    · intro tr htr
      obtain ⟨⟨t', p'⟩, hpair, hb⟩ := mapExcept_ok_mem_right hmap htr
      obtain ⟨h1, h2, -⟩ := buildTrace_ok_spec hb
      rw [← h1, ← h2] at hb
      exact hb

/-- Witness for C6 (amended): Alice's Hemoglobin pair yields a series. -/
theorem c6_series_only_for_first_patients_tests_witness :
    update_charts ["Alice"] [rA1, rA2] = .ok [trAlice] ∧
    (∃ tr ∈ [trAlice], tr.patient = "Alice" ∧ tr.test = "Hemoglobin") :=
  have h : update_charts ["Alice"] [rA1, rA2] = .ok [trAlice] := by with_unfolding_all rfl
  ⟨h, ((c6_series_only_for_first_patients_tests ["Alice"] [rA1, rA2] [trAlice] h).1
      "Alice" "Hemoglobin").mpr ⟨by decide, by decide, by decide⟩⟩

/-! ## Claim C7 -/

/-- Counterexample to C7: Alice's series holds `rA1` (dated `01/01/2024`,
range `10 - 20`) before `rA2` (dated `01/01/2023`, range `30 - 40`) in
table order.  The chronologically-first observation is `rA2`, whose range
is `30 - 40`; yet the annotation pair is derived from `'range'[0]` —
`rA1`'s `10 - 20` (the ranges list is never reordered by the date sort). -/
theorem c7_counterexample :
    update_charts ["Alice"] [rA1, rA2] = .ok [trAlice] ∧
    chronFirstRange (chartRows [rA1, rA2] "Alice" "Hemoglobin") = some "30 - 40" ∧
    trAlice.rangeUsed = "10 - 20" ∧ ("10 - 20" : String) ≠ "30 - 40" :=
  ⟨by with_unfolding_all rfl, by with_unfolding_all rfl, rfl, by decide⟩

/-- C7 as amended: the low/high annotation pair of a series is derived
from the `Reference Range` of the observation that appears FIRST in table
order within the series, whatever its date. -/
theorem c7_annotation_from_first_table_row
    (selected : List String) (table : List Entry) (traces : List Trace) (tr : Trace)
    (h : update_charts selected table = .ok traces) (htr : tr ∈ traces) :
    ∃ r0 rtl, chartRows table tr.patient tr.test = r0 :: rtl ∧
      tr.rangeUsed = r0.referenceRange := by
  rcases update_charts_ok_cases h with ⟨hg, rfl⟩ | hmap
  · cases htr
  · obtain ⟨⟨t', p'⟩, hpair, hb⟩ := mapExcept_ok_mem_right hmap htr
    obtain ⟨h1, h2, r0, rtl, dates, vals, hcr, -, -, -, hrange⟩ := buildTrace_ok_spec hb
    rw [← h1, ← h2] at hcr
    exact ⟨r0, rtl, hcr, hrange⟩

/-- Witness for C7 (amended): Alice's series, annotated from `rA1`. -/
theorem c7_annotation_from_first_table_row_witness :
    update_charts ["Alice"] [rA1, rA2] = .ok [trAlice] ∧
    ∃ r0 rtl, chartRows [rA1, rA2] trAlice.patient trAlice.test = r0 :: rtl ∧
      trAlice.rangeUsed = r0.referenceRange :=
  have h : update_charts ["Alice"] [rA1, rA2] = .ok [trAlice] := by with_unfolding_all rfl
  ⟨h, c7_annotation_from_first_table_row ["Alice"] [rA1, rA2] [trAlice] trAlice h
    (by simp)⟩

/-! ## Claim C8 -/

/-- C8: within every produced series the plotted points are the series'
observations with dates parsed day/month/year (`strptime('%d/%m/%Y')`),
ordered newest-first: the point list is sorted for the descending date
order `ptDesc` and is a permutation of the observations' parsed
`(date, value)` pairs. -/
theorem c8_points_sorted_newest_first
    (selected : List String) (table : List Entry) (traces : List Trace) (tr : Trace)
    (h : update_charts selected table = .ok traces) (htr : tr ∈ traces) :
    List.Sorted ptDesc tr.points ∧
    ∃ raw, List.Forall₂
        (fun (r : Entry) (q : (ℕ × ℕ × ℕ) × ℚ) =>
          rowDate r.date = some q.1 ∧ pyFloat r.value = some q.2)
        (chartRows table tr.patient tr.test) raw ∧
      tr.points.Perm raw := by
  rcases update_charts_ok_cases h with ⟨hg, rfl⟩ | hmap
  · cases htr
  · obtain ⟨⟨t', p'⟩, hpair, hb⟩ := mapExcept_ok_mem_right hmap htr
    obtain ⟨h1, h2, r0, rtl, dates, vals, hcr, hd, hv, hpts, -⟩ := buildTrace_ok_spec hb
    rw [← h1, ← h2] at hcr
    have hF1 : List.Forall₂ (fun (r : Entry) d => rowDate r.date = some d) (r0 :: rtl) dates :=
      List.Forall₂.imp (fun _ _ ha => exceptOfOption_ok_iff.mp ha) (mapExcept_ok_forall₂.mp hd)
    have hF2 : List.Forall₂ (fun (r : Entry) v => pyFloat r.value = some v) (r0 :: rtl) vals :=
      List.Forall₂.imp (fun _ _ ha => exceptOfOption_ok_iff.mp ha) (mapExcept_ok_forall₂.mp hv)
    refine ⟨?_, dates.zip vals, ?_, ?_⟩
    · rw [hpts]
      exact List.sorted_insertionSort ptDesc _
    · rw [hcr]
      exact forall₂_zip_of hF1 hF2
    · rw [hpts]
      exact List.perm_insertionSort ptDesc _

/-- Witness for C8: Alice's two-point series is sorted newest-first. -/
theorem c8_points_sorted_newest_first_witness :
    update_charts ["Alice"] [rA1, rA2] = .ok [trAlice] ∧
    List.Sorted ptDesc trAlice.points ∧
    ∃ raw, List.Forall₂
        (fun (r : Entry) (q : (ℕ × ℕ × ℕ) × ℚ) =>
          rowDate r.date = some q.1 ∧ pyFloat r.value = some q.2)
        (chartRows [rA1, rA2] trAlice.patient trAlice.test) raw ∧
      trAlice.points.Perm raw :=
  have h : update_charts ["Alice"] [rA1, rA2] = .ok [trAlice] := by with_unfolding_all rfl
  have hc := c8_points_sorted_newest_first ["Alice"] [rA1, rA2] [trAlice] trAlice h (by simp)
  ⟨h, hc.1, hc.2⟩

/-! ## Claim C10 -/

/-- C10: the dropdown options of `handle_upload` are exactly the distinct
non-null extracted patient names (the hypothesis records that extraction
never yields an empty-string name, since the name regex captures at least
one letter per word); rows keep all their fields in the table output, and
a row whose name is `None` is never selected by the chart filter and
belongs to no chart series. -/
theorem c10_dropdown_nonnull_names (files_data : List Entry)
    (h : ∀ e ∈ files_data, e.name ≠ some "") :
    (handle_upload files_data).1 = files_data ∧
    (∀ n, n ∈ (handle_upload files_data).2 ↔ some n ∈ files_data.map (fun e => e.name)) ∧
    (handle_upload files_data).2.Nodup ∧
    (∀ r ∈ (handle_upload files_data).1, r.name = none →
      (∀ selected, rowSelected r.name selected = false) ∧
      (∀ p t, r ∉ chartRows (handle_upload files_data).1 p t)) := by
  by_cases hfe : files_data.isEmpty
  · rw [List.isEmpty_iff.mp hfe]
    refine ⟨rfl, ?_, ?_, ?_⟩
    · intro n
      simp [handle_upload]
    · simp [handle_upload]
    · intro r hr
      cases hr
  · have hta : (handle_upload files_data).1 = files_data := by
      unfold handle_upload
      rw [if_neg hfe]
      exact List.map_id' files_data
    have hdrop : (handle_upload files_data).2 =
        (files_data.map (fun e => e.name)).dedup.filterMap (fun n =>
          match n with
          | some s => if s = "" then none else some s
          | none => none) := by
      unfold handle_upload
      rw [if_neg hfe]
    refine ⟨hta, ?_, ?_, ?_⟩
    · intro n
      rw [hdrop, List.mem_filterMap]
      constructor
      · rintro ⟨a, ha, hfa⟩
        cases a with
        | none => cases hfa
        | some s =>
          dsimp only at hfa
          by_cases hs : s = ""
          · rw [if_pos hs] at hfa
            cases hfa
          · rw [if_neg hs] at hfa
            injection hfa with hsn
            subst hsn
            exact List.mem_dedup.mp ha
      · intro hn
        refine ⟨some n, List.mem_dedup.mpr hn, ?_⟩
        have hne : n ≠ "" := by
          obtain ⟨e, he, hen⟩ := List.mem_map.mp hn
          intro hrfl
          exact h e he (by rw [hen, hrfl])
        dsimp only
        rw [if_neg hne]
    · rw [hdrop]
      refine List.Nodup.filterMap ?_ (List.nodup_dedup _)
      intro a a' b hb hb'
      cases a with
      | none => cases hb
      | some s =>
        dsimp only at hb
        cases a' with
        | none => cases hb'
        | some s' =>
          dsimp only at hb'
          by_cases hs : s = ""
          · rw [if_pos hs] at hb
            cases hb
          · rw [if_neg hs] at hb
            by_cases hs' : s' = ""
            · rw [if_pos hs'] at hb'
              cases hb'
            · rw [if_neg hs'] at hb'
              cases hb
              cases hb'
              rfl
    · intro r hr hname
      constructor
      · intro selected
        rw [hname]
        rfl
      · intro p t hmem
        rw [chartRows, List.mem_filter] at hmem
        have hsel := hmem.2
        rw [hname] at hsel
        simp at hsel

/-- Witness for C10: a batch with one nameless row and one of Alice's;
only Alice is offered for selection. -/
theorem c10_dropdown_nonnull_names_witness :
    (∀ e ∈ [rNoName, rA1], e.name ≠ some "") ∧
    "Alice" ∈ (handle_upload [rNoName, rA1]).2 :=
  ⟨by decide,
    ((c10_dropdown_nonnull_names [rNoName, rA1] (by decide)).2.1 "Alice").mpr (by decide)⟩

end HealthMonitor
